import Mathlib

/-!
Verification of the weather_data_retrieval package of the
open-source-marginal-emissions repository.

The Python sources are shallowly embedded: Python values flowing through the
configuration layer are modelled by the inductive type `PyVal` (numbers are
modelled exactly, floats as rationals, since the code only compares and
converts them), stateful objects (`SessionState`) by explicit state passing,
and code that can raise by `Except`.  External effects (filesystem checks,
network authentication, the current clock) enter as explicit parameters.
-/

namespace WDR

/-- A Python value as it appears in a JSON-sourced configuration mapping or in
the session.  Floats are modelled as exact rationals (the code only converts,
compares and prints them); an authenticated remote client is an opaque id. -/
inductive PyVal where
  | none
  | bool (b : Bool)
  | int (n : Int)
  | float (q : Rat)
  | str (s : String)
  | list (xs : List PyVal)
  | dict (xs : List (String × PyVal))
  | client (id : Nat)

/-- Python exception kinds relevant to the embedded code. -/
inductive PyExn where
  | attributeError
  | valueError
  | typeError
deriving DecidableEq

/-- Python truthiness (`bool(x)` / `if x:`). -/
def pyTruthy : PyVal → Bool
  | .none => false
  | .bool b => b
  | .int n => n ≠ 0
  | .float q => q ≠ 0
  | .str s => s ≠ ""
  | .list xs => !xs.isEmpty
  | .dict xs => !xs.isEmpty
  | .client _ => true

/-!
## Session state

`SessionState` (utils/session_management.py, both copies agree on this class):
an insertion-ordered dict from field name to a value/filled pair, initialised
with the fourteen declared fields.  `set`/`unset` are guarded by
`if key in self.fields`, so an unknown key is a silent no-op; `get` returns
`None` for an unknown key.
-/

/-- The ordered field dict of `SessionState.__init__`. -/
structure SessionState where
  fields : List (String × PyVal × Bool)

/-- `SessionState()`: the fourteen declared fields, in declaration order,
all unfilled. -/
def SessionState.init : SessionState :=
  ⟨[("data_provider", PyVal.none, false),
    ("dataset_short_name", PyVal.none, false),
    ("api_url", PyVal.none, false),
    ("api_key", PyVal.none, false),
    ("session_client", PyVal.none, false),
    ("save_dir", PyVal.none, false),
    ("start_date", PyVal.none, false),
    ("end_date", PyVal.none, false),
    ("region_bounds", PyVal.none, false),
    ("variables", PyVal.none, false),
    ("existing_file_action", PyVal.none, false),
    ("parallel_settings", PyVal.none, false),
    ("retry_settings", PyVal.none, false),
    ("inputs_confirmed", PyVal.none, false)]⟩

/-- `SessionState.set`: update value and mark filled, only if the key is
among the declared fields (dict keys are unique, so updating every matching
entry of the association list is the same operation). -/
def SessionState.set (s : SessionState) (key : String) (v : PyVal) : SessionState :=
  ⟨s.fields.map (fun f => if f.1 = key then (f.1, v, true) else f)⟩

/-- `SessionState.unset`: clear value and filled flag, only for declared keys. -/
def SessionState.unset (s : SessionState) (key : String) : SessionState :=
  ⟨s.fields.map (fun f => if f.1 = key then (f.1, PyVal.none, false) else f)⟩

/-- `SessionState.get`: the stored value, or `None` for an unknown key. -/
def SessionState.get (s : SessionState) (key : String) : PyVal :=
  match s.fields.find? (fun f => f.1 = key) with
  | some f => f.2.1
  | Option.none => PyVal.none

/-- The key list of the session dict, in insertion order. -/
def SessionState.keys (s : SessionState) : List String := s.fields.map (fun f => f.1)

/-- `first_unfilled_key`: first declared field with `filled=False`. -/
def SessionState.first_unfilled_key (s : SessionState) : Option String :=
  match s.fields.find? (fun f => !f.2.2) with
  | some f => some f.1
  | Option.none => Option.none

theorem SessionState.set_keys (s : SessionState) (k : String) (v : PyVal) :
    (s.set k v).keys = s.keys := by
  simp only [SessionState.set, SessionState.keys, List.map_map]
  apply List.map_congr_left
  intro f _
  by_cases h : f.1 = k <;> simp [h]

theorem SessionState.unset_keys (s : SessionState) (k : String) :
    (s.unset k).keys = s.keys := by
  simp only [SessionState.unset, SessionState.keys, List.map_map]
  apply List.map_congr_left
  intro f _
  by_cases h : f.1 = k <;> simp [h]

theorem SessionState.set_of_not_mem (s : SessionState) (k : String) (v : PyVal)
    (h : k ∉ s.keys) : s.set k v = s := by
  simp only [SessionState.set]
  cases s with
  | mk fs =>
    congr 1
    have hcong : fs.map (fun f => if f.1 = k then (f.1, v, true) else f) = fs.map id := by
      apply List.map_congr_left
      intro f hf
      have : f.1 ≠ k := by
        intro hk
        exact h (by simpa [SessionState.keys, hk] using List.mem_map_of_mem (fun f => f.1) hf)
      simp [this]
    rw [hcong, List.map_id]

theorem SessionState.unset_of_not_mem (s : SessionState) (k : String)
    (h : k ∉ s.keys) : s.unset k = s := by
  simp only [SessionState.unset]
  cases s with
  | mk fs =>
    congr 1
    have hcong : fs.map (fun f => if f.1 = k then (f.1, PyVal.none, false) else f) = fs.map id := by
      apply List.map_congr_left
      intro f hf
      have : f.1 ≠ k := by
        intro hk
        exact h (by simpa [SessionState.keys, hk] using List.mem_map_of_mem (fun f => f.1) hf)
      simp [this]
    rw [hcong, List.map_id]

theorem SessionState.get_of_not_mem (s : SessionState) (k : String)
    (h : k ∉ s.keys) : s.get k = PyVal.none := by
  simp only [SessionState.get]
  have : s.fields.find? (fun f => f.1 = k) = Option.none := by
    apply List.find?_eq_none.mpr
    intro f hf
    have : f.1 ≠ k := by
      intro hk
      exact h (by simpa [SessionState.keys, hk] using List.mem_map_of_mem (fun f => f.1) hf)
    simp [this]
  rw [this]

end WDR

/-- C10: every SessionState operation preserves the fixed 14-field key set and
its declaration order: `set`/`unset` with a key outside the declared fields are
silent no-ops, `get` with an unknown key returns `None`, and no operation adds,
removes or reorders fields. -/
theorem C10_sessionstate_fixed_field_set :
    (WDR.SessionState.init.keys =
      ["data_provider", "dataset_short_name", "api_url", "api_key",
       "session_client", "save_dir", "start_date", "end_date",
       "region_bounds", "variables", "existing_file_action",
       "parallel_settings", "retry_settings", "inputs_confirmed"]) ∧
    (∀ (s : WDR.SessionState) (k : String) (v : WDR.PyVal),
      (s.set k v).keys = s.keys) ∧
    (∀ (s : WDR.SessionState) (k : String), (s.unset k).keys = s.keys) ∧
    (∀ (s : WDR.SessionState) (k : String) (v : WDR.PyVal),
      k ∉ s.keys → s.set k v = s) ∧
    (∀ (s : WDR.SessionState) (k : String), k ∉ s.keys → s.unset k = s) ∧
    (∀ (s : WDR.SessionState) (k : String), k ∉ s.keys → s.get k = WDR.PyVal.none) := by
  refine ⟨rfl, WDR.SessionState.set_keys, WDR.SessionState.unset_keys,
    WDR.SessionState.set_of_not_mem, WDR.SessionState.unset_of_not_mem,
    WDR.SessionState.get_of_not_mem⟩

/-- C10 witness: the unknown key "bogus" is outside the declared fields, and
`set`/`unset`/`get` on it behave as the theorem states for the fresh session. -/
theorem C10_sessionstate_fixed_field_set_witness :
    ("bogus" ∉ WDR.SessionState.init.keys) ∧
    (WDR.SessionState.init.set "bogus" (WDR.PyVal.int 5) = WDR.SessionState.init) ∧
    (WDR.SessionState.init.unset "bogus" = WDR.SessionState.init) ∧
    (WDR.SessionState.init.get "bogus" = WDR.PyVal.none) := by
  have h : "bogus" ∉ WDR.SessionState.init.keys := by decide
  exact ⟨h,
    C10_sessionstate_fixed_field_set.2.2.2.1 WDR.SessionState.init "bogus" (WDR.PyVal.int 5) h,
    C10_sessionstate_fixed_field_set.2.2.2.2.1 WDR.SessionState.init "bogus" h,
    C10_sessionstate_fixed_field_set.2.2.2.2.2 WDR.SessionState.init "bogus" h⟩

namespace WDR

/-!
## Dates

`datetime` values flowing through the planner and the clamp all have time
00:00, so a date is (year, month, day); the constructor invariants of
`datetime` (month in 1..12, day ≥ 1) are carried as proof fields.
Comparison of `datetime` objects is lexicographic.
-/

/-- A `datetime` at midnight: (year, month, day) with the constructor
invariants `1 ≤ month ≤ 12` and `1 ≤ day` that `datetime` enforces. -/
structure PyDate where
  year : Nat
  month : Nat
  day : Nat
  month_ge_one : 1 ≤ month
  month_le_twelve : month ≤ 12
  day_ge_one : 1 ≤ day

/-- Strict `datetime` comparison `a < b` (lexicographic). -/
def dateLtB (a b : PyDate) : Bool :=
  decide (a.year < b.year) ||
    (decide (a.year = b.year) &&
      (decide (a.month < b.month) ||
        (decide (a.month = b.month) && decide (a.day < b.day))))

/-- `datetime` comparison `a ≤ b`, i.e. not `b < a`. -/
def dateLeB (a b : PyDate) : Bool := !dateLtB b a

theorem dateLtB_iff (a b : PyDate) :
    dateLtB a b = true ↔
      (a.year < b.year ∨ (a.year = b.year ∧
        (a.month < b.month ∨ (a.month = b.month ∧ a.day < b.day)))) := by
  simp [dateLtB]

theorem dateLeB_iff (a b : PyDate) :
    dateLeB a b = true ↔
      (a.year < b.year ∨ (a.year = b.year ∧
        (a.month < b.month ∨ (a.month = b.month ∧ a.day ≤ b.day)))) := by
  simp only [dateLeB, Bool.not_eq_true', ← Bool.not_eq_true, dateLtB_iff]
  constructor
  · intro h
    rcases Nat.lt_trichotomy a.year b.year with hy | hy | hy
    · exact Or.inl hy
    · refine Or.inr ⟨hy, ?_⟩
      rcases Nat.lt_trichotomy a.month b.month with hm | hm | hm
      · exact Or.inl hm
      · exact Or.inr ⟨hm, by omega⟩
      · exact absurd (Or.inr ⟨hy.symm, Or.inl hm⟩) h
    · exact absurd (Or.inl hy) h
  · intro h hc
    omega

/-- `clamp_era5_available_end_date` (utils/data_validation.py): with the
availability boundary `upper` (today at midnight minus the 8-day lag) held
fixed, return `upper` if `end > upper`, else `end` unchanged. -/
def clamp_era5_available_end_date (upper e : PyDate) : PyDate :=
  if dateLtB upper e then upper else e

theorem dateLtB_irrefl (a : PyDate) : dateLtB a a = false := by
  simp [dateLtB]

theorem dateLtB_asymm {a b : PyDate} (h : dateLtB a b = true) :
    dateLtB b a = false := by
  rw [dateLtB_iff] at h
  rw [← Bool.not_eq_true, dateLtB_iff]
  omega

end WDR

/-- C7: with the availability boundary (now minus 8 days) held fixed at
`upper`, `clamp_era5_available_end_date` never returns a date later than its
input, never later than `upper`, and is idempotent; any end date past the
boundary (e.g. tomorrow) is mapped to `upper`, and any end date at or before
it (e.g. one year in the past) is returned unchanged. -/
theorem C7_clamp_era5_end_date (upper e : WDR.PyDate) :
    WDR.dateLeB (WDR.clamp_era5_available_end_date upper e) e = true ∧
    WDR.dateLeB (WDR.clamp_era5_available_end_date upper e) upper = true ∧
    WDR.clamp_era5_available_end_date upper
      (WDR.clamp_era5_available_end_date upper e) =
      WDR.clamp_era5_available_end_date upper e ∧
    (WDR.dateLtB upper e = true →
      WDR.clamp_era5_available_end_date upper e = upper) ∧
    (WDR.dateLtB upper e = false →
      WDR.clamp_era5_available_end_date upper e = e) := by
  cases hlt : WDR.dateLtB upper e with
  | true =>
    refine ⟨?_, ?_, ?_, fun _ => ?_, fun hc => by simp [hlt] at hc⟩ <;>
      simp [WDR.clamp_era5_available_end_date, hlt, WDR.dateLeB,
        WDR.dateLtB_asymm hlt, WDR.dateLtB_irrefl]
  | false =>
    refine ⟨?_, ?_, ?_, fun hc => by simp [hlt] at hc, fun _ => ?_⟩ <;>
      simp [WDR.clamp_era5_available_end_date, hlt, WDR.dateLeB, WDR.dateLtB_irrefl]

/-- C7 witness: with today = 2026-10-12, the boundary is 2026-10-04; an end
date of tomorrow (2026-10-13) is clamped to the boundary, and an end date one
year in the past (2025-10-12) is returned unchanged. -/
theorem C7_clamp_era5_end_date_witness :
    WDR.dateLtB ⟨2026, 10, 4, by decide, by decide, by decide⟩
      ⟨2026, 10, 13, by decide, by decide, by decide⟩ = true ∧
    WDR.clamp_era5_available_end_date
      ⟨2026, 10, 4, by decide, by decide, by decide⟩
      ⟨2026, 10, 13, by decide, by decide, by decide⟩ =
      ⟨2026, 10, 4, by decide, by decide, by decide⟩ ∧
    WDR.dateLtB ⟨2026, 10, 4, by decide, by decide, by decide⟩
      ⟨2025, 10, 12, by decide, by decide, by decide⟩ = false ∧
    WDR.clamp_era5_available_end_date
      ⟨2026, 10, 4, by decide, by decide, by decide⟩
      ⟨2025, 10, 12, by decide, by decide, by decide⟩ =
      ⟨2025, 10, 12, by decide, by decide, by decide⟩ := by
  refine ⟨by decide, ?_, by decide, ?_⟩
  · exact (C7_clamp_era5_end_date _ _).2.2.2.1 (by decide)
  · exact (C7_clamp_era5_end_date _ _).2.2.2.2 (by decide)

namespace WDR

/-!
## Coordinate validation
-/

/-- `validate_coordinates` (utils/data_validation.py): all of
`-90 ≤ south ≤ 90`, `-90 ≤ north ≤ 90`, `-180 ≤ west ≤ 180`,
`-180 ≤ east ≤ 180` and `north > south`. -/
def validate_coordinates (north west south east : Rat) : Bool :=
  (decide (-90 ≤ south) && decide (south ≤ 90)) &&
  (decide (-90 ≤ north) && decide (north ≤ 90)) &&
  (decide (-180 ≤ west) && decide (west ≤ 180)) &&
  (decide (-180 ≤ east) && decide (east ≤ 180)) &&
  decide (south < north)

end WDR

/-- C6 counterexample: the claim states acceptance iff
`-90 ≤ south ≤ north ≤ 90` (non-strict) together with the longitude ranges;
at north = south = 0 (west = 0, east = 20) that condition holds but
`validate_coordinates` rejects, because the code requires `north > south`
strictly. -/
theorem C6_validate_coordinates_counterexample :
    ¬ ((WDR.validate_coordinates 0 0 0 20 = true) ↔
      ((-90 : Rat) ≤ 0 ∧ (0 : Rat) ≤ 0 ∧ (0 : Rat) ≤ 90 ∧
       (-180 : Rat) ≤ 0 ∧ (0 : Rat) ≤ 180 ∧
       (-180 : Rat) ≤ 20 ∧ (20 : Rat) ≤ 180)) := by
  intro h
  have : WDR.validate_coordinates 0 0 0 20 = true :=
    h.mpr (by norm_num)
  exact absurd this (by decide)

/-- C6 (amended): `validate_coordinates` returns `True` iff
`-90 ≤ south < north ≤ 90` (strictly south < north) and
`-180 ≤ west ≤ 180` and `-180 ≤ east ≤ 180`; east < west remains permitted,
and the two example inputs from the claim are rejected. -/
theorem C6_validate_coordinates_amended :
    (∀ north west south east : Rat,
      WDR.validate_coordinates north west south east = true ↔
        (-90 ≤ south ∧ south < north ∧ north ≤ 90 ∧
         -180 ≤ west ∧ west ≤ 180 ∧ -180 ≤ east ∧ east ≤ 180)) ∧
    WDR.validate_coordinates 10 (-200) 0 20 = false ∧
    WDR.validate_coordinates (-10) 0 10 20 = false := by
  refine ⟨fun north west south east => ?_, by decide, by decide⟩
  simp only [WDR.validate_coordinates, Bool.and_eq_true, decide_eq_true_eq]
  constructor
  · rintro ⟨⟨⟨⟨⟨h1, h2⟩, h3, h4⟩, h5, h6⟩, h7, h8⟩, h9⟩
    exact ⟨h1, h9, h4, h5, h6, h7, h8⟩
  · rintro ⟨h1, h2, h3, h4, h5, h6, h7⟩
    refine ⟨⟨⟨⟨⟨h1, ?_⟩, ?_, h3⟩, h4, h5⟩, h6, h7⟩, h2⟩
    · exact le_trans (le_of_lt h2) h3
    · exact le_trans h1 (le_of_lt h2)

namespace WDR

/-!
## Month planning (sources/cds_era5.py, `plan_cds_months`)

The month-list loop:
```
cur = datetime(s.year, s.month, 1)
while cur <= e:
    months.append((cur.year, cur.month))
    cur = datetime(cur.year + 1, 1, 1) if cur.month == 12 else datetime(cur.year, cur.month + 1, 1)
```
-/

/-- Zero-based month counter used only to reason about the loop. -/
def monthIndex (y m : Nat) : Nat := 12 * y + (m - 1)

/-- Decode a month counter back to a (year, month) pair. -/
def decodeMonth (n : Nat) : Nat × Nat := (n / 12, n % 12 + 1)

theorem dateLeB_first_iff (cy cm : Nat) (h1 : 1 ≤ cm) (h2 : cm ≤ 12)
    (hd : 1 ≤ (1 : Nat)) (e : PyDate) :
    dateLeB ⟨cy, cm, 1, h1, h2, hd⟩ e = true ↔
      monthIndex cy cm ≤ monthIndex e.year e.month := by
  rw [dateLeB_iff]
  simp only [monthIndex]
  have he1 := e.month_ge_one
  have he2 := e.month_le_twelve
  have hed := e.day_ge_one
  omega

/-- The `while cur <= e` month-accumulation loop, starting from the first of
month (cy, cm). -/
def buildMonthsAux (e : PyDate) (cy cm : Nat) (h1 : 1 ≤ cm) (h2 : cm ≤ 12) :
    List (Nat × Nat) :=
  if hle : dateLeB ⟨cy, cm, 1, h1, h2, le_refl 1⟩ e = true then
    (cy, cm) ::
      (if hm : cm = 12 then
        buildMonthsAux e (cy + 1) 1 (le_refl 1) (by omega)
      else
        buildMonthsAux e cy (cm + 1) (by omega) (by omega))
  else
    []
termination_by monthIndex e.year e.month + 1 - monthIndex cy cm
decreasing_by
  all_goals
    rw [dateLeB_first_iff] at hle
    simp only [monthIndex] at *
    omega

/-- The inclusive month list of `plan_cds_months` for dates `s`, `e`. -/
def plan_cds_month_list (s e : PyDate) : List (Nat × Nat) :=
  buildMonthsAux e s.year s.month s.month_ge_one s.month_le_twelve

theorem buildMonthsAux_eq (e : PyDate) (cy cm : Nat) (h1 : 1 ≤ cm) (h2 : cm ≤ 12) :
    buildMonthsAux e cy cm h1 h2 =
      (List.range' (monthIndex cy cm)
        (monthIndex e.year e.month + 1 - monthIndex cy cm)).map decodeMonth := by
  generalize hn : monthIndex e.year e.month + 1 - monthIndex cy cm = n
  induction n generalizing cy cm with
  | zero =>
    rw [buildMonthsAux]
    have hnle : ¬ (dateLeB ⟨cy, cm, 1, h1, h2, le_refl 1⟩ e = true) := by
      rw [dateLeB_first_iff]
      simp only [monthIndex] at *
      omega
    simp [hnle]
  | succ n ih =>
    rw [buildMonthsAux]
    have hle : dateLeB ⟨cy, cm, 1, h1, h2, le_refl 1⟩ e = true := by
      rw [dateLeB_first_iff]
      simp only [monthIndex] at *
      omega
    rw [List.range'_succ]
    rw [dif_pos hle]
    simp only [List.map_cons]
    have hdec : decodeMonth (monthIndex cy cm) = (cy, cm) := by
      simp only [decodeMonth, monthIndex]
      have : (12 * cy + (cm - 1)) / 12 = cy := by omega
      have h' : (12 * cy + (cm - 1)) % 12 = cm - 1 := by omega
      rw [this, h']
      have : cm - 1 + 1 = cm := by omega
      rw [this]
    rw [hdec]
    congr 1
    by_cases hm : cm = 12
    · subst hm
      rw [dif_pos rfl]
      have hidx : monthIndex (cy + 1) 1 = monthIndex cy 12 + 1 := by
        simp [monthIndex]; omega
      rw [ih (cy + 1) 1 (le_refl 1) (by omega) (by simp only [monthIndex] at *; omega), hidx]
    · simp only [dif_neg hm]
      have hidx : monthIndex cy (cm + 1) = monthIndex cy cm + 1 := by
        simp [monthIndex]; omega
      rw [ih cy (cm + 1) (by omega) (by omega) (by simp only [monthIndex] at *; omega), hidx]

theorem monthIndex_decodeMonth (n : Nat) :
    monthIndex (decodeMonth n).1 (decodeMonth n).2 = n := by
  simp only [monthIndex, decodeMonth]
  omega

end WDR

/-- C2: for start and end dates with end after start, `plan_cds_months` builds
exactly the chronological inclusive sequence of (year, month) pairs from the
start month through the end month: it equals the canonical ascending
enumeration of month counters, a pair is a member iff its month lies between
the two boundary months, and there are no duplicates. -/
theorem C2_plan_cds_months (s e : WDR.PyDate) (hse : WDR.dateLtB s e = true) :
    WDR.plan_cds_month_list s e =
      (List.range' (WDR.monthIndex s.year s.month)
        (WDR.monthIndex e.year e.month + 1 -
          WDR.monthIndex s.year s.month)).map WDR.decodeMonth ∧
    (∀ y m : Nat, (y, m) ∈ WDR.plan_cds_month_list s e ↔
      (1 ≤ m ∧ m ≤ 12 ∧
       WDR.monthIndex s.year s.month ≤ WDR.monthIndex y m ∧
       WDR.monthIndex y m ≤ WDR.monthIndex e.year e.month)) ∧
    (WDR.plan_cds_month_list s e).Nodup := by
  have heq := WDR.buildMonthsAux_eq e s.year s.month s.month_ge_one s.month_le_twelve
  refine ⟨heq, ?_, ?_⟩
  · intro y m
    rw [WDR.plan_cds_month_list, heq]
    constructor
    · intro hmem
      obtain ⟨n, hn, hdec⟩ := List.mem_map.mp hmem
      rw [List.mem_range'] at hn
      obtain ⟨i, hi, hni⟩ := hn
      have hm12 : (WDR.decodeMonth n).2 = n % 12 + 1 := rfl
      have hy : (WDR.decodeMonth n).1 = n / 12 := rfl
      have h1 : 1 ≤ m := by
        have := congrArg Prod.snd hdec
        simp only [hm12] at this
        omega
      have h2 : m ≤ 12 := by
        have := congrArg Prod.snd hdec
        simp only [hm12] at this
        omega
      have hidx : WDR.monthIndex y m = n := by
        have h0 := congrArg (fun p => WDR.monthIndex p.1 p.2) hdec
        simpa [WDR.monthIndex_decodeMonth] using h0.symm
      refine ⟨h1, h2, ?_, ?_⟩ <;> omega
    · rintro ⟨h1, h2, h3, h4⟩
      apply List.mem_map.mpr
      refine ⟨WDR.monthIndex y m, ?_, ?_⟩
      · rw [List.mem_range']
        exact ⟨WDR.monthIndex y m - WDR.monthIndex s.year s.month, by omega, by omega⟩
      · simp only [WDR.decodeMonth, WDR.monthIndex]
        have hdiv : (12 * y + (m - 1)) / 12 = y := by omega
        have hmod : (12 * y + (m - 1)) % 12 = m - 1 := by omega
        rw [hdiv, hmod]
        have : m - 1 + 1 = m := by omega
        rw [this]
  · rw [WDR.plan_cds_month_list, heq]
    apply List.Nodup.map_on
    · intro a _ b _ hab
      have ha := WDR.monthIndex_decodeMonth a
      have hb := WDR.monthIndex_decodeMonth b
      rw [← ha, ← hb, hab]
    · exact List.nodup_range' _ _

/-- C2 witness: start 2020-01-15, end 2020-03-05 yields exactly
[(2020,1), (2020,2), (2020,3)]. -/
theorem C2_plan_cds_months_witness :
    WDR.dateLtB ⟨2020, 1, 15, by decide, by decide, by decide⟩
      ⟨2020, 3, 5, by decide, by decide, by decide⟩ = true ∧
    WDR.plan_cds_month_list ⟨2020, 1, 15, by decide, by decide, by decide⟩
      ⟨2020, 3, 5, by decide, by decide, by decide⟩ =
      [(2020, 1), (2020, 2), (2020, 3)] := by
  have h := C2_plan_cds_months ⟨2020, 1, 15, by decide, by decide, by decide⟩
    ⟨2020, 3, 5, by decide, by decide, by decide⟩ (by decide)
  refine ⟨by decide, ?_⟩
  rw [h.1]
  decide

namespace WDR

/-!
## Download executor (sources/cds_era5.py, `execute_cds_download`)

The retry loop:
```
for attempt in range(1, max_retries + 1):
    try:
        <retrieve>; return (year, month, "success")
    except Exception:
        if attempt < max_retries:
            time.sleep(retry_delay_sec)
            <best-effort re-authentication, failures swallowed>
        else:
            return (year, month, "failed")
```
If the range is empty (max_retries = 0) the function falls off the end and
returns `None`.  Whether the retrieve call of attempt `n` succeeds is the
oracle `succ n`; re-authentication never changes control flow, so it does not
appear in the observable trace.
-/

/-- Observable outcome of one `execute_cds_download` call: the returned value
(`None` when the loop body never runs), the number of retrieve attempts made,
and the number of inter-attempt `time.sleep` calls. -/
structure ExecResult where
  result : Option (Nat × Nat × String)
  attempts : Nat
  sleeps : Nat
deriving DecidableEq

/-- The retry loop body over the remaining attempt numbers. -/
def cdsAttemptLoop (succ : Nat → Bool) (maxRetries y m : Nat) :
    List Nat → ExecResult
  | [] => ⟨Option.none, 0, 0⟩
  | a :: rest =>
    if succ a then ⟨some (y, m, "success"), 1, 0⟩
    else if a < maxRetries then
      let r := cdsAttemptLoop succ maxRetries y m rest
      ⟨r.result, r.attempts + 1, r.sleeps + 1⟩
    else ⟨some (y, m, "failed"), 1, 0⟩

/-- `execute_cds_download` for one month: run the attempts
`range(1, max_retries + 1)`. -/
def execute_cds_download (succ : Nat → Bool) (maxRetries y m : Nat) : ExecResult :=
  cdsAttemptLoop succ maxRetries y m (List.range' 1 maxRetries)

theorem cdsAttemptLoop_all_fail (succ : Nat → Bool) (N y m : Nat)
    (hfail : ∀ j, succ j = false) :
    ∀ n a, 1 ≤ n → 1 ≤ a → a + n = N + 1 →
      cdsAttemptLoop succ N y m (List.range' a n) =
        ⟨some (y, m, "failed"), n, n - 1⟩ := by
  intro n
  induction n with
  | zero => omega
  | succ n ih =>
    intro a _ ha hsum
    rw [List.range'_succ, cdsAttemptLoop]
    simp only [hfail a, Bool.false_eq_true, if_false]
    by_cases hn : n = 0
    · subst hn
      have : ¬ (a < N) := by omega
      simp [this]
    · have hlt : a < N := by omega
      simp only [hlt, if_true]
      rw [ih (a + 1) (by omega) (by omega) (by omega)]
      simp only
      refine congrArg₂ _ rfl ?_
      omega

theorem cdsAttemptLoop_first_success (succ : Nat → Bool) (N y m K : Nat)
    (hK : succ K = true) (hKN : K ≤ N) :
    ∀ n a, 1 ≤ a → a + n = N + 1 → a ≤ K →
      (∀ j, a ≤ j → j < K → succ j = false) →
      cdsAttemptLoop succ N y m (List.range' a n) =
        ⟨some (y, m, "success"), K - a + 1, K - a⟩ := by
  intro n
  induction n with
  | zero => omega
  | succ n ih =>
    intro a ha hsum haK hprev
    rw [List.range'_succ, cdsAttemptLoop]
    by_cases heq : a = K
    · subst heq
      simp [hK, Nat.sub_self]
    · have hfa : succ a = false := hprev a (le_refl a) (by omega)
      have hlt : a < N := by omega
      simp only [hfa, Bool.false_eq_true, if_false, hlt, if_true]
      rw [ih (a + 1) (by omega) (by omega) (by omega)
        (fun j hj hj' => hprev j (by omega) hj')]
      simp only
      have h1 : K - (a + 1) + 1 + 1 = K - a + 1 := by omega
      have h2 : K - (a + 1) + 1 = K - a := by omega
      rw [h1, h2]

end WDR

/-- C3: with max_retries = N ≥ 1 and a remote client that raises on every
retrieve call, `execute_cds_download` makes exactly N attempts, sleeps exactly
N − 1 times, and returns (year, month, "failed"); if attempts 1..k−1 raise and
attempt k ≤ N succeeds, it returns (year, month, "success") immediately after
exactly k attempts (and k − 1 sleeps), with no further attempts. -/
theorem C3_execute_cds_download_retries (succ : Nat → Bool) (N y m : Nat)
    (hN : 1 ≤ N) :
    ((∀ j, succ j = false) →
      WDR.execute_cds_download succ N y m =
        ⟨some (y, m, "failed"), N, N - 1⟩) ∧
    (∀ k, 1 ≤ k → k ≤ N → (∀ j, 1 ≤ j → j < k → succ j = false) →
      succ k = true →
      WDR.execute_cds_download succ N y m =
        ⟨some (y, m, "success"), k, k - 1⟩) := by
  constructor
  · intro hfail
    rw [WDR.execute_cds_download,
      WDR.cdsAttemptLoop_all_fail succ N y m hfail N 1 hN (le_refl 1) (by omega)]
  · intro k hk1 hkN hprev hk
    rw [WDR.execute_cds_download,
      WDR.cdsAttemptLoop_first_success succ N y m k hk hkN N 1 (le_refl 1)
        (by omega) hk1 (fun j hj hj' => hprev j hj hj')]
    have h1 : k - 1 + 1 = k := by omega
    rw [h1]

/-- C3 witness: with max_retries = 3 and an always-raising client, exactly 3
attempts and 2 sleeps occur and the result is "failed"; with a client that
succeeds on the first attempt, one attempt and no sleep occur. -/
theorem C3_execute_cds_download_retries_witness :
    (WDR.execute_cds_download (fun _ => false) 3 2020 1 =
      ⟨some (2020, 1, "failed"), 3, 2⟩) ∧
    (WDR.execute_cds_download (fun _ => true) 3 2020 1 =
      ⟨some (2020, 1, "success"), 1, 0⟩) := by
  constructor
  · exact (C3_execute_cds_download_retries (fun _ => false) 3 2020 1 (by decide)).1
      (fun _ => rfl)
  · exact (C3_execute_cds_download_retries (fun _ => true) 3 2020 1 (by decide)).2
      1 (by decide) (by decide) (fun j h1 h2 => by omega) rfl

namespace WDR

/-!
## Python string and number semantics used by the config mapper

Only what the embedded code actually does: ASCII lowercasing, `str.strip`,
`str()`/`int()`/`float()` conversions (floats as exact rationals; Python's
scientific-notation float repr for very large/small magnitudes is not
modelled, the configuration values in range never reach it), and
dict/config `get` with defaults.
-/

/-- Characters removed by `str.strip()`. -/
def isPySpace (c : Char) : Bool :=
  c = ' ' || c = '\t' || c = '\n' || c = '\r' || c.toNat = 11 || c.toNat = 12

/-- ASCII lowercasing as done by `str.lower()` on the identifiers involved. -/
def toLowerAsciiChar (c : Char) : Char :=
  if 'A' ≤ c && c ≤ 'Z' then Char.ofNat (c.toNat + 32) else c

/-- Drop matching characters from both ends. -/
def dropEnds (p : Char → Bool) (l : List Char) : List Char :=
  ((l.dropWhile p).reverse.dropWhile p).reverse

/-- `s.strip()`. -/
def pyStripWS (s : String) : String := ⟨dropEnds isPySpace s.data⟩

/-- `s.strip(c)` for a single character. -/
def pyStripChar (c : Char) (s : String) : String := ⟨dropEnds (fun x => x = c) s.data⟩

/-- `s.lower()`. -/
def pyLower (s : String) : String := ⟨s.data.map toLowerAsciiChar⟩

def isDigitChar (c : Char) : Bool := '0' ≤ c && c ≤ '9'

def digitsToNat (l : List Char) : Nat :=
  l.foldl (fun a c => 10 * a + (c.toNat - 48)) 0

/-- Parse a non-empty all-digit character list. -/
def parseNatChars (l : List Char) : Option Nat :=
  if !l.isEmpty && l.all isDigitChar then some (digitsToNat l) else Option.none

/-- Split off one optional leading sign. -/
def splitSign : List Char → Int × List Char
  | '+' :: rest => (1, rest)
  | '-' :: rest => (-1, rest)
  | l => (1, l)

/-- `int(s)` on a string: optional surrounding whitespace and sign, digits. -/
def parseIntString (s : String) : Option Int :=
  let (sgn, rest) := splitSign (pyStripWS s).data
  (parseNatChars rest).map (fun n => sgn * (n : Int))

/-- Mantissa split at one optional decimal point. -/
def splitMantissa (l : List Char) : Option (List Char × List Char) :=
  match l.span (fun c => c ≠ '.') with
  | (ip, []) => some (ip, [])
  | (ip, _ :: fp) => if fp.all (fun c => c ≠ '.') then some (ip, fp) else Option.none

/-- `float(s)` on a string: sign, digits with optional point, optional
exponent (`inf`/`nan` are not modelled). -/
def parseFloatString (s : String) : Option Rat :=
  let (sgn, rest) := splitSign (pyStripWS s).data
  let (mant, expPart) := rest.span (fun c => c ≠ 'e' && c ≠ 'E')
  let expVal : Option Int :=
    match expPart with
    | [] => some 0
    | _ :: ex =>
      let (esgn, ed) := splitSign ex
      (parseNatChars ed).map (fun n => esgn * (n : Int))
  match splitMantissa mant, expVal with
  | some (ip, fp), some ex =>
    if (ip ++ fp).isEmpty || !(ip ++ fp).all isDigitChar then Option.none
    else
      some ((sgn : Rat) * (digitsToNat (ip ++ fp) : Rat) /
        ((10 : Rat) ^ fp.length) * (10 : Rat) ^ ex)
  | _, _ => Option.none

/-- Truncation toward zero, as `int(float)` does. -/
def truncRat (q : Rat) : Int := if 0 ≤ q then ⌊q⌋ else -⌊-q⌋

/-- `int(x)`: raises TypeError for non-numeric non-string values and
ValueError for unparsable strings. -/
def pyToInt : PyVal → Except PyExn Int
  | .bool b => .ok (if b then 1 else 0)
  | .int n => .ok n
  | .float q => .ok (truncRat q)
  | .str s =>
    match parseIntString s with
    | some n => .ok n
    | Option.none => .error .valueError
  | _ => .error .typeError

/-- `float(x)`. -/
def pyToFloat : PyVal → Except PyExn Rat
  | .bool b => .ok (if b then 1 else 0)
  | .int n => .ok (n : Rat)
  | .float q => .ok q
  | .str s =>
    match parseFloatString s with
    | some q => .ok q
    | Option.none => .error .valueError
  | _ => .error .typeError

/-- Left-pad a numeral with zeros. -/
def padZeros (k : Nat) (s : String) : String :=
  ⟨List.replicate (k - s.data.length) '0' ++ s.data⟩

/-- Decimal repr of a float value (exact, since the embedded floats are
decimal-sourced); integral values render with a trailing ".0" as in Python. -/
def floatRepr (q : Rat) : String :=
  let n := q.num.natAbs
  let sgn := if q.num < 0 then "-" else ""
  match (List.range 65).find? (fun k => (10 ^ k * n) % q.den = 0) with
  | some 0 => sgn ++ Nat.repr (n / q.den) ++ ".0"
  | some k =>
    let m := 10 ^ k * n / q.den
    let ds := padZeros (k + 1) (Nat.repr m)
    let ipLen := ds.data.length - k
    sgn ++ ⟨ds.data.take ipLen⟩ ++ "." ++ ⟨ds.data.drop ipLen⟩
  | Option.none => sgn ++ Nat.repr n ++ "/" ++ Nat.repr q.den

/-- `str(x)` for the scalar values reaching `str()` in the mapper. -/
def pyStr : PyVal → String
  | .none => "None"
  | .bool true => "True"
  | .bool false => "False"
  | .int n => if n < 0 then "-" ++ Nat.repr n.natAbs else Nat.repr n.natAbs
  | .float q => floatRepr q
  | .str s => s
  | .list _ => "[...]"
  | .dict _ => "..."
  | .client i => "<client " ++ Nat.repr i ++ ">"

/-- `cfg.get(key, default)` on the configuration mapping. -/
def cfgGet (cfg : List (String × PyVal)) (k : String) (d : PyVal) : PyVal :=
  (cfg.lookup k).getD d

/-- `d.get(key, default)` on an embedded dict value. -/
def dictGet (xs : List (String × PyVal)) (k : String) (d : PyVal) : PyVal :=
  (xs.lookup k).getD d

/-- `x.get(key, default)` on an arbitrary value: AttributeError unless `x`
is a dict. -/
def pyAttrGet (v : PyVal) (k : String) (d : PyVal) : Except PyExn PyVal :=
  match v with
  | .dict xs => .ok (dictGet xs k d)
  | _ => .error .attributeError

/-- Split a character list at commas. -/
def splitComma : List Char → List (List Char)
  | [] => [[]]
  | c :: rest =>
    let r := splitComma rest
    if c = ',' then [] :: r
    else
      match r with
      | h :: t => (c :: h) :: t
      | [] => [[c]]

end WDR

namespace WDR

/-!
## Config validation data (utils/data_validation.py)
-/

/-- `NORMALIZATION_MAP["data_provider"]`. -/
def providerMap : List (String × String) :=
  [("cds", "cds"), ("copernicus", "cds"), ("copernicus climate", "cds"),
   ("copernicus data store", "cds"), ("copernicus climate data store", "cds"),
   ("era5", "cds"), ("1", "cds"),
   ("open-meteo", "open-meteo"), ("openmeteo", "open-meteo"),
   ("om", "open-meteo"), ("open", "open-meteo"), ("2", "open-meteo")]

/-- `NORMALIZATION_MAP["era5_dataset_short_name"]`. -/
def datasetMap : List (String × String) :=
  [("era5land", "era5-land"), ("era5-land", "era5-land"), ("land", "era5-land"),
   ("0.1", "era5-land"), ("1", "era5-land"),
   ("era5-world", "era5-world"), ("era5_world", "era5-world"),
   ("world", "era5-world"), ("era5", "era5-world"), ("0.25", "era5-world"),
   ("2", "era5-world")]

/-- `NORMALIZATION_MAP["boolean"]`. -/
def booleanMap : List (String × Bool) :=
  [("yes", true), ("y", true), ("1", true), ("true", true), ("t", true), ("on", true),
   ("no", false), ("n", false), ("0", false), ("false", false), ("f", false),
   ("off", false)]

/-- `normalize_input` on a string value for a string-valued category. -/
def normalize_input (m : List (String × String)) (s : String) : String :=
  ((m.lookup (pyLower (pyStripWS s))).getD s)

/-- `validate_data_provider`. -/
def validate_data_provider (p : String) : Bool :=
  p = "cds" || p = "open-meteo"

/-- The dataset short names of `CDS_DATASETS`. -/
def cdsDatasetNames : List String := ["era5-world", "era5-land"]

/-- `validate_dataset_short_name` for provider "cds". -/
def validate_dataset_short_name_cds (ds : String) : Bool :=
  cdsDatasetNames.contains ds

/-- `invalid_era5_world_variables` (the deny list). -/
def invalid_era5_world_variables : List String :=
  ["fraction_of_cloud_cover", "large_scale_precipitation", "snow_density",
   "snow_depth", "snowfall", "surface_runoff", "sub_surface_runoff",
   "total_evaporation", "volumetric_soil_water_layer_1",
   "volumetric_soil_water_layer_2", "volumetric_soil_water_layer_3",
   "volumetric_soil_water_layer_4", "skin_reservoir_content",
   "temperature_of_snow_layer", "soil_temperature_level_1",
   "soil_temperature_level_2", "soil_temperature_level_3",
   "soil_temperature_level_4"]

/-!
## Date parsing (`validate_date` / `parse_date_with_defaults`)
-/

/-- Gregorian leap year, as `calendar` uses. -/
def isLeapYear (y : Nat) : Bool :=
  y % 4 = 0 && (y % 100 ≠ 0 || y % 400 = 0)

/-- `calendar.monthrange(y, m)[1]`: days in the month. -/
def daysInMonth (y m : Nat) : Nat :=
  if m = 2 then (if isLeapYear y then 29 else 28)
  else if m = 4 || m = 6 || m = 9 || m = 11 then 30
  else 31

/-- Build a `datetime`, enforcing its constructor checks (month 1..12,
day within the month, year 1..9999). -/
def mkDate (y m d : Nat) : Except PyExn PyDate :=
  if h : 1 ≤ m ∧ m ≤ 12 ∧ 1 ≤ d ∧ d ≤ daysInMonth y m ∧ 1 ≤ y ∧ y ≤ 9999 then
    .ok ⟨y, m, d, h.1, h.2.1, h.2.2.1⟩
  else
    .error .valueError

/-- Numeral padded to two digits, as in the f-strings of the source. -/
def pad2 (n : Nat) : String := padZeros 2 (Nat.repr n)

/-- Numeral padded to four digits (`%Y` / `date.isoformat`). -/
def pad4 (n : Nat) : String := padZeros 4 (Nat.repr n)

/-- `date.isoformat()`. -/
def isoFormat (d : PyDate) : String :=
  pad4 d.year ++ "-" ++ pad2 d.month ++ "-" ++ pad2 d.day

/-- `datetime.strptime(s, "%Y-%m-%d")` restricted to the 4-2-2 digit shape
that a length-10 input can match. -/
def strptimeYmd (s : String) : Except PyExn PyDate :=
  match s.data with
  | [y1, y2, y3, y4, h1, m1, m2, h2, d1, d2] =>
    if [y1, y2, y3, y4, m1, m2, d1, d2].all isDigitChar && h1 = '-' && h2 = '-' then
      mkDate (digitsToNat [y1, y2, y3, y4]) (digitsToNat [m1, m2]) (digitsToNat [d1, d2])
    else
      .error .valueError
  | _ => .error .valueError

/-- `parse_date_with_defaults`: YYYY-MM is completed to the first or last day
of the month; YYYY-MM-DD is parsed directly; anything else raises. -/
def parse_date_with_defaults (s : String) (defaultToMonthEnd : Bool) :
    Except PyExn (PyDate × String) :=
  if s.data.length = 7 then
    match s.data.splitOn '-' with
    | [yc, mc] =>
      match parseNatChars yc, parseNatChars mc with
      | some y, some m =>
        let day := if defaultToMonthEnd then daysInMonth y m else 1
        match mkDate y m day with
        | .ok d => .ok (d, pad4 y ++ "-" ++ pad2 m ++ "-" ++ pad2 day)
        | .error e => .error e
      | _, _ => .error .valueError
    | _ => .error .valueError
  else if s.data.length = 10 then
    match strptimeYmd s with
    | .ok d => .ok (d, s)
    | .error e => .error e
  else
    .error .valueError

end WDR

namespace WDR

/-!
## `validate_existing_file_action` (utils/data_validation.py)

Returns the effective policy; the coercion branches also write a warning via
`log_msg(..., level="warning")` (modelled as the returned message list) and
store the coerced policy back into the session.
-/

def validate_existing_file_action (s : SessionState) (allowPrompts : Bool) :
    PyVal × SessionState × List String :=
  let v := s.get "existing_file_action"
  let policy := if pyTruthy v then v else PyVal.str "case_by_case"
  let allowed : Bool :=
    match policy with
    | .str st => st = "overwrite_all" || st = "skip_all" || st = "case_by_case"
    | _ => false
  if !allowed then
    if allowPrompts then
      (PyVal.str "case_by_case", s,
       ["Unrecognized existing_file_action; treating as case_by_case due to interactive mode."])
    else
      (PyVal.str "skip_all", s.set "existing_file_action" (PyVal.str "skip_all"),
       ["Unrecognized existing_file_action; coercing to skip_all for automatic mode."])
  else
    let isCbc : Bool :=
      match policy with
      | .str st => st = "case_by_case"
      | _ => false
    if isCbc && !allowPrompts then
      (PyVal.str "skip_all", s.set "existing_file_action" (PyVal.str "skip_all"),
       ["existing_file_action=case_by_case is not supported without prompts; coercing to skip_all for automatic mode."])
    else
      (policy, s, [])

/-!
## `map_config_to_session` (utils/session_management.py)

The function body is a sequence of independent per-field sections, each
reading only `cfg`, appending to `messages`/`errors` and setting session
fields.  Each section is embedded as one step producing
(session updates, progress notes, hard errors); the sections that can raise
(`save_dir` via `Path()`, and the retry/parallel sections via `.get` and
`int()` on arbitrary values) return `Except`.  External effects are the
authentication oracle `auth` (None = authentication failed), the directory
oracle `dirOK` (`validate_directory`), the clamp boundary `upper` and the
default save directory string.
-/

/-- One per-field section outcome: session updates, progress notes, hard
errors. -/
structure StepOut where
  sets : List (String × PyVal)
  notes : List String
  errs : List String

/-- Section "Provider". -/
def providerStep (cfg : List (String × PyVal)) : StepOut :=
  let raw := cfgGet cfg "data_provider" (.str "cds")
  let provider := normalize_input providerMap (pyStr raw)
  if !validate_data_provider provider then
    ⟨[], [], ["Invalid data_provider. Allowed: cds."]⟩
  else if provider ≠ "cds" then
    ⟨[], [], ["Only cds is supported in this version."]⟩
  else
    ⟨[("data_provider", .str provider)], ["data_provider = " ++ provider], []⟩

/-- Section "Dataset". -/
def datasetStep (cfg : List (String × PyVal)) : StepOut :=
  let raw := cfgGet cfg "dataset_short_name" (cfgGet cfg "dataset" (.str "era5-world"))
  let ds := normalize_input datasetMap (pyStr raw)
  if !validate_dataset_short_name_cds ds then
    ⟨[], [], ["Invalid dataset_short_name for CDS. Try era5-world."]⟩
  else if ds ≠ "era5-world" then
    ⟨[], [], ["Only era5-world is implemented in this version."]⟩
  else
    ⟨[("dataset_short_name", .str ds)], ["dataset_short_name = " ++ ds], []⟩

/-- Section "API": authentication is the oracle `auth` (the code's
`validate_cds_api_key`, which returns a client or `None` and never raises). -/
def apiStep (cfg : List (String × PyVal)) (auth : PyVal → PyVal → Option Nat) : StepOut :=
  let api_url := cfgGet cfg "api_url" (.str "https://cds.climate.copernicus.eu/api")
  let api_key := cfgGet cfg "api_key" (.str "")
  if !pyTruthy api_key then
    ⟨[], [], ["Missing api_key in config."]⟩
  else
    match auth api_url api_key with
    | Option.none =>
      ⟨[("api_url", api_url), ("api_key", api_key)], [],
       ["CDS authentication failed with provided api_url/api_key."]⟩
    | some cid =>
      ⟨[("api_url", api_url), ("api_key", api_key), ("session_client", .client cid)],
       ["CDS authentication successful."], []⟩

/-- Section "Dates": parse both dates (any parse failure is caught and turned
into one hard error), record the order error while still clamping and storing
the dates, as the source does. -/
def datesStep (cfg : List (String × PyVal)) (upper : PyDate) : StepOut :=
  let start_in := cfgGet cfg "start_date" (cfgGet cfg "start" .none)
  let end_in := cfgGet cfg "end_date" (cfgGet cfg "end" .none)
  if !pyTruthy start_in || !pyTruthy end_in then
    ⟨[], [], ["Both start_date and end_date are required in config."]⟩
  else
    match parse_date_with_defaults (pyStr start_in) false,
      parse_date_with_defaults (pyStr end_in) true with
    | .ok (sdt, sstr), .ok (edt, estr) =>
      let ordErr :=
        if dateLeB edt sdt then
          ["end_date (" ++ estr ++ ") must be after start_date (" ++ sstr ++ ")."]
        else []
      let ec := clamp_era5_available_end_date upper edt
      ⟨[("start_date", .str (isoFormat sdt)), ("end_date", .str (isoFormat ec))],
       ["date range = " ++ isoFormat sdt ++ " -> " ++ isoFormat ec], ordErr⟩
    | _, _ => ⟨[], [], ["Invalid dates."]⟩

/-- One candidate of `try_extract_bounds` on a dict: outer `none` = a key is
missing (try the next candidate), outer `some none` = conversion raised
(caught, whole extraction returns None). -/
def candExtract (keys : List (String × PyVal)) (n w s e : String) :
    Option (Option (List Rat)) :=
  if ((keys.lookup n).isSome && (keys.lookup w).isSome &&
      (keys.lookup s).isSome && (keys.lookup e).isSome) then
    some (match pyToFloat ((keys.lookup n).getD PyVal.none),
        pyToFloat ((keys.lookup w).getD PyVal.none),
        pyToFloat ((keys.lookup s).getD PyVal.none),
        pyToFloat ((keys.lookup e).getD PyVal.none) with
      | .ok N, .ok W, .ok S, .ok E => some [N, W, S, E]
      | _, _, _, _ => Option.none)
  else Option.none

/-- `try_extract_bounds`: dict forms with lowercased keys (later duplicate
keys win, hence the reversed lookup list), then 4-element list form. -/
def try_extract_bounds (obj : PyVal) : Option (List Rat) :=
  match obj with
  | .dict xs =>
    let keys := (xs.map (fun kv => (pyLower kv.1, kv.2))).reverse
    match candExtract keys "north" "west" "south" "east" with
    | some r => r
    | Option.none =>
      match candExtract keys "n" "w" "s" "e" with
      | some r => r
      | Option.none => Option.none
  | .list vs =>
    match vs with
    | [a, b, c, d] =>
      match pyToFloat a, pyToFloat b, pyToFloat c, pyToFloat d with
      | .ok A, .ok B, .ok C, .ok D => some [A, B, C, D]
      | _, _, _, _ => Option.none
    | _ => Option.none
  | _ => Option.none

/-- Section "Region bounds": the four accepted shapes tried in order. -/
def boundsStep (cfg : List (String × PyVal)) : StepOut :=
  let bounds :=
    match try_extract_bounds (cfgGet cfg "region_bounds" .none) with
    | some b => some b
    | Option.none =>
      match try_extract_bounds (cfgGet cfg "bounds" .none) with
      | some b => some b
      | Option.none =>
        match try_extract_bounds (cfgGet cfg "area" .none) with
        | some b => some b
        | Option.none =>
          try_extract_bounds (.dict
            [("north", cfgGet cfg "north" .none), ("south", cfgGet cfg "south" .none),
             ("west", cfgGet cfg "west" .none), ("east", cfgGet cfg "east" .none)])
  match bounds with
  | some [n, w, s, e] =>
    if !validate_coordinates n w s e then
      ⟨[], [], ["Invalid region bounds."]⟩
    else
      ⟨[("region_bounds", .list [.float n, .float w, .float s, .float e])],
       ["region_bounds = N" ++ floatRepr n ++ ", W" ++ floatRepr w ++
        ", S" ++ floatRepr s ++ ", E" ++ floatRepr e], []⟩
  | _ =>
    ⟨[], [],
     ["Missing or invalid region bounds. Provide north, west, south, east."]⟩

/-- The per-variable cleanup `v.strip().lower().strip(dquote).strip(squote)`. -/
def cleanupVariable (s : String) : String :=
  pyStripChar (Char.ofNat 39) (pyStripChar (Char.ofNat 34) (pyLower (pyStripWS s)))

/-- Section "Variables": string or list input, cleanup, deny-list filtering. -/
def variablesStep (cfg : List (String × PyVal)) : StepOut :=
  let raw := cfgGet cfg "variables" .none
  let varsList : List String :=
    match raw with
    | .str s =>
      (splitComma s.data).filterMap (fun v =>
        if pyStripWS ⟨v⟩ = "" then Option.none else some (cleanupVariable ⟨v⟩))
    | .list vs =>
      vs.filterMap (fun v =>
        if pyStripWS (pyStr v) = "" then Option.none
        else some (cleanupVariable (pyStr v)))
    | _ => []
  let missingErr : List String :=
    match raw with
    | .str _ => []
    | .list _ => []
    | _ => ["Missing variables (list or comma-separated string)."]
  if varsList.isEmpty then
    ⟨[], [], missingErr⟩
  else
    let valid := varsList.filter (fun v => !invalid_era5_world_variables.contains v)
    let invalid := varsList.filter (fun v => invalid_era5_world_variables.contains v)
    let filterNote :=
      if !invalid.isEmpty then
        ["Filtering out disallowed variables: " ++ String.intercalate ", " invalid]
      else []
    if valid.isEmpty then
      ⟨[], filterNote, ["After filtering disallowed variables, no variables remain."]⟩
    else
      ⟨[("variables", .list (valid.map PyVal.str))],
       filterNote ++ ["variables = " ++ String.intercalate ", " valid], []⟩

/-- Section "Save directory": `validate_directory(Path(save_dir))`; `Path()`
raises TypeError on a non-string value (that call is outside any handler). -/
def saveDirStep (cfg : List (String × PyVal)) (dirOK : String → Bool)
    (defaultSaveDir : String) : Except PyExn StepOut :=
  match cfgGet cfg "save_dir" (.str defaultSaveDir) with
  | .str s =>
    if !dirOK s then
      .ok ⟨[], [], ["Cannot access/create save_dir: " ++ s]⟩
    else
      .ok ⟨[("save_dir", .str s)], ["save_dir = " ++ s], []⟩
  | _ => .error .typeError

/-- Section "Existing file policy". -/
def efaStep (cfg : List (String × PyVal)) : StepOut :=
  let efa_raw := cfgGet cfg "existing_file_action" (cfgGet cfg "file_policy" (.str "case_by_case"))
  let efa_norm := pyLower (pyStripWS (pyStr efa_raw))
  if efa_norm = "overwrite_all" || efa_norm = "skip_all" || efa_norm = "case_by_case" then
    ⟨[("existing_file_action", .str efa_norm)], ["existing_file_action = " ++ efa_norm], []⟩
  else if efa_norm = "1" then
    ⟨[("existing_file_action", .str "overwrite_all")], ["existing_file_action = overwrite_all"], []⟩
  else if efa_norm = "2" then
    ⟨[("existing_file_action", .str "skip_all")], ["existing_file_action = skip_all"], []⟩
  else if efa_norm = "3" then
    ⟨[("existing_file_action", .str "case_by_case")], ["existing_file_action = case_by_case"], []⟩
  else
    ⟨[("existing_file_action", .str "case_by_case")],
     ["existing_file_action not recognized; defaulting to case_by_case."], []⟩

/-- Section "Retry settings": `.get` on an arbitrary value and bare `int()`
conversions, so this section can raise. -/
def retryStep (cfg : List (String × PyVal)) : Except PyExn StepOut := do
  let retries := cfgGet cfg "retry_settings" (.dict [])
  let mrRaw ← pyAttrGet retries "max_retries" (.int 6)
  let mr ← pyToInt mrRaw
  let rdInner ← pyAttrGet retries "retry_delay" (.int 15)
  let rdRaw ← pyAttrGet retries "retry_delay_sec" rdInner
  let rd ← pyToInt rdRaw
  if mr < 0 || rd < 0 then
    return ⟨[], [], ["retry_settings must be non-negative."]⟩
  else
    return ⟨[("retry_settings", .dict [("max_retries", .int mr), ("retry_delay_sec", .int rd)])],
      ["retry_settings: max_retries=" ++ pyStr (.int mr) ++
       ", retry_delay_sec=" ++ pyStr (.int rd)], []⟩

/-- Section "Parallel settings": `.get` on an arbitrary value can raise; the
`int(mc)` conversion is inside try/except and defaults to 2. -/
def parallelStep (cfg : List (String × PyVal)) : Except PyExn StepOut := do
  let parallel := cfgGet cfg "parallel_settings" (cfgGet cfg "parallel" (.dict []))
  let en0 ← pyAttrGet parallel "enabled" (.bool true)
  let en1 :=
    match en0 with
    | .str s =>
      match booleanMap.lookup (pyLower (pyStripWS s)) with
      | some b => PyVal.bool b
      | Option.none => PyVal.str s
    | v => v
  let enabled := pyTruthy en1
  let mcRaw ← pyAttrGet parallel "max_concurrent" (.int 2)
  let mc : Int :=
    match pyToInt mcRaw with
    | .ok n => n
    | .error _ => 2
  if !enabled then
    return ⟨[("parallel_settings", .dict [("enabled", .bool false), ("max_concurrent", .int 1)])],
      ["parallel_settings = disabled"], []⟩
  else
    let mc2 := if mc < 2 then 2 else mc
    return ⟨[("parallel_settings", .dict [("enabled", .bool true), ("max_concurrent", .int mc2)])],
      ["parallel_settings = enabled, max_concurrent=" ++ pyStr (.int mc2)], []⟩

/-- `map_config_to_session`: run the sections in source order (the three
fallible ones in their positions), then combine: session updates applied in
order, and `(False, messages + errors)` iff any hard error accumulated. -/
def map_config_to_session (cfg : List (String × PyVal))
    (auth : PyVal → PyVal → Option Nat) (dirOK : String → Bool)
    (upper : PyDate) (defaultSaveDir : String) (session : SessionState) :
    Except PyExn (Bool × List String × SessionState) := do
  let p1 := providerStep cfg
  let p2 := datasetStep cfg
  let p3 := apiStep cfg auth
  let p4 := datesStep cfg upper
  let p5 := boundsStep cfg
  let p6 := variablesStep cfg
  let p7 ← saveDirStep cfg dirOK defaultSaveDir
  let p8 := efaStep cfg
  let p9 ← retryStep cfg
  let p10 ← parallelStep cfg
  let steps := [p1, p2, p3, p4, p5, p6, p7, p8, p9, p10]
  let messages := (steps.map StepOut.notes).flatten
  let errors := (steps.map StepOut.errs).flatten
  let sess := ((steps.map StepOut.sets).flatten).foldl (fun s kv => s.set kv.1 kv.2) session
  if errors.isEmpty then
    return (true, messages, sess)
  else
    return (false, messages ++ errors, sess)

end WDR

namespace WDR

/-- Whether an embedded computation succeeded. -/
def isOkE {α : Type} : Except PyExn α → Bool
  | .ok _ => true
  | .error _ => false

theorem isOkE_exists {α : Type} {e : Except PyExn α} (h : isOkE e = true) :
    ∃ a, e = .ok a := by
  cases e with
  | ok a => exact ⟨a, rfl⟩
  | error _ => simp [isOkE] at h

/-- Input-shape condition under which the retry section cannot raise:
`retry_settings` is a mapping (or absent) and its values convert with
`int()`. -/
def retryShapeOK (cfg : List (String × PyVal)) : Bool :=
  match cfgGet cfg "retry_settings" (.dict []) with
  | .dict xs =>
    isOkE (pyToInt (dictGet xs "max_retries" (.int 6))) &&
    isOkE (pyToInt (dictGet xs "retry_delay_sec" (dictGet xs "retry_delay" (.int 15))))
  | _ => false

/-- Input-shape condition under which the parallel section cannot raise:
`parallel_settings` (or `parallel`) is a mapping or absent. -/
def parallelShapeOK (cfg : List (String × PyVal)) : Bool :=
  match cfgGet cfg "parallel_settings" (cfgGet cfg "parallel" (.dict [])) with
  | .dict _ => true
  | _ => false

/-- Input-shape condition under which the save-dir section cannot raise:
`save_dir` is a string or absent. -/
def saveDirShapeOK (cfg : List (String × PyVal)) (defaultSaveDir : String) : Bool :=
  match cfgGet cfg "save_dir" (.str defaultSaveDir) with
  | .str _ => true
  | _ => false

/-- The outcome of a fallible section when it did not raise. -/
def okOr (e : Except PyExn StepOut) : StepOut :=
  match e with
  | .ok o => o
  | .error _ => ⟨[], [], []⟩

theorem saveDirStep_isOk (cfg : List (String × PyVal)) (dirOK : String → Bool)
    (dsd : String) (h : saveDirShapeOK cfg dsd = true) :
    ∃ o, saveDirStep cfg dirOK dsd = .ok o := by
  rw [saveDirShapeOK] at h
  generalize hc : cfgGet cfg "save_dir" (.str dsd) = rv at h
  cases rv
  case str s =>
    rw [saveDirStep, hc]
    dsimp only
    split <;> exact ⟨_, rfl⟩
  all_goals simp at h

theorem retryStep_isOk (cfg : List (String × PyVal))
    (h : retryShapeOK cfg = true) : ∃ o, retryStep cfg = .ok o := by
  rw [retryShapeOK] at h
  generalize hc : cfgGet cfg "retry_settings" (.dict []) = rv at h
  cases rv
  case dict xs =>
    simp only [Bool.and_eq_true] at h
    obtain ⟨mr, hmr⟩ := isOkE_exists h.1
    obtain ⟨rd, hrd⟩ := isOkE_exists h.2
    rw [retryStep]
    simp only [hc, pyAttrGet, bind, Except.bind, hmr, hrd]
    split <;> exact ⟨_, rfl⟩
  all_goals simp at h

theorem parallelStep_isOk (cfg : List (String × PyVal))
    (h : parallelShapeOK cfg = true) : ∃ o, parallelStep cfg = .ok o := by
  rw [parallelShapeOK] at h
  generalize hc : cfgGet cfg "parallel_settings" (cfgGet cfg "parallel" (.dict [])) = rv at h
  cases rv
  case dict xs =>
    rw [parallelStep]
    simp only [hc, pyAttrGet, bind, Except.bind]
    split <;> exact ⟨_, rfl⟩
  all_goals simp at h

/-- All progress notes of `map_config_to_session`, per section in source
order. -/
def mapConfigNotes (cfg : List (String × PyVal)) (auth : PyVal → PyVal → Option Nat)
    (dirOK : String → Bool) (upper : PyDate) (dsd : String) : List String :=
  (providerStep cfg).notes ++ (datasetStep cfg).notes ++ (apiStep cfg auth).notes ++
  (datesStep cfg upper).notes ++ (boundsStep cfg).notes ++ (variablesStep cfg).notes ++
  (okOr (saveDirStep cfg dirOK dsd)).notes ++ (efaStep cfg).notes ++
  (okOr (retryStep cfg)).notes ++ (okOr (parallelStep cfg)).notes

/-- All hard errors of `map_config_to_session`, per section in source order:
every invalid field contributes its own messages, independent of the other
fields. -/
def mapConfigErrors (cfg : List (String × PyVal)) (auth : PyVal → PyVal → Option Nat)
    (dirOK : String → Bool) (upper : PyDate) (dsd : String) : List String :=
  (providerStep cfg).errs ++ (datasetStep cfg).errs ++ (apiStep cfg auth).errs ++
  (datesStep cfg upper).errs ++ (boundsStep cfg).errs ++ (variablesStep cfg).errs ++
  (okOr (saveDirStep cfg dirOK dsd)).errs ++ (efaStep cfg).errs ++
  (okOr (retryStep cfg)).errs ++ (okOr (parallelStep cfg)).errs

end WDR

/-- C4 counterexample: the claim says `map_config_to_session` never raises on
invalid field values, but a config whose `retry_settings` field is the string
"abc" makes the retry section call `.get` on a string, raising
AttributeError. -/
theorem C4_map_config_counterexample :
    WDR.map_config_to_session [("retry_settings", WDR.PyVal.str "abc")]
      (fun _ _ => Option.none) (fun _ => true)
      ⟨2026, 10, 4, by decide, by decide, by decide⟩ "data/raw"
      WDR.SessionState.init = .error .attributeError := by
  rfl

/-- C4 (amended): provided `retry_settings` and `parallel_settings` are
mappings with `int()`-convertible values and `save_dir` is a string (otherwise
the function raises, e.g. `retry_settings = "abc"`), `map_config_to_session`
never raises: it returns `(ok, messages)` where the messages accumulate one
note/error list per field section (so every invalid field is reported, not
only the first), and ok = False exactly when some hard error was
accumulated. -/
theorem C4_map_config_amended (cfg : List (String × WDR.PyVal))
    (auth : WDR.PyVal → WDR.PyVal → Option Nat) (dirOK : String → Bool)
    (upper : WDR.PyDate) (dsd : String) (session : WDR.SessionState)
    (h1 : WDR.retryShapeOK cfg = true) (h2 : WDR.parallelShapeOK cfg = true)
    (h3 : WDR.saveDirShapeOK cfg dsd = true) :
    ∃ ok msgs sess,
      WDR.map_config_to_session cfg auth dirOK upper dsd session =
        .ok (ok, msgs, sess) ∧
      (ok = true ↔ WDR.mapConfigErrors cfg auth dirOK upper dsd = []) ∧
      msgs = WDR.mapConfigNotes cfg auth dirOK upper dsd ++
        WDR.mapConfigErrors cfg auth dirOK upper dsd ∧
      WDR.mapConfigErrors cfg auth dirOK upper dsd =
        (WDR.providerStep cfg).errs ++ (WDR.datasetStep cfg).errs ++
        (WDR.apiStep cfg auth).errs ++ (WDR.datesStep cfg upper).errs ++
        (WDR.boundsStep cfg).errs ++ (WDR.variablesStep cfg).errs ++
        (WDR.okOr (WDR.saveDirStep cfg dirOK dsd)).errs ++ (WDR.efaStep cfg).errs ++
        (WDR.okOr (WDR.retryStep cfg)).errs ++ (WDR.okOr (WDR.parallelStep cfg)).errs := by
  obtain ⟨o7, ho7⟩ := WDR.saveDirStep_isOk cfg dirOK dsd h3
  obtain ⟨o9, ho9⟩ := WDR.retryStep_isOk cfg h1
  obtain ⟨o10, ho10⟩ := WDR.parallelStep_isOk cfg h2
  have hok7 : WDR.okOr (WDR.saveDirStep cfg dirOK dsd) = o7 := by rw [ho7]; rfl
  have hok9 : WDR.okOr (WDR.retryStep cfg) = o9 := by rw [ho9]; rfl
  have hok10 : WDR.okOr (WDR.parallelStep cfg) = o10 := by rw [ho10]; rfl
  have herr : WDR.mapConfigErrors cfg auth dirOK upper dsd =
      ([WDR.providerStep cfg, WDR.datasetStep cfg, WDR.apiStep cfg auth,
        WDR.datesStep cfg upper, WDR.boundsStep cfg, WDR.variablesStep cfg,
        o7, WDR.efaStep cfg, o9, o10].map WDR.StepOut.errs).flatten := by
    simp [WDR.mapConfigErrors, hok7, hok9, hok10, List.append_assoc]
  have hnotes : WDR.mapConfigNotes cfg auth dirOK upper dsd =
      ([WDR.providerStep cfg, WDR.datasetStep cfg, WDR.apiStep cfg auth,
        WDR.datesStep cfg upper, WDR.boundsStep cfg, WDR.variablesStep cfg,
        o7, WDR.efaStep cfg, o9, o10].map WDR.StepOut.notes).flatten := by
    simp [WDR.mapConfigNotes, hok7, hok9, hok10, List.append_assoc]
  rw [WDR.map_config_to_session]
  simp only [ho7, ho9, ho10, bind, Except.bind]
  by_cases he : (([WDR.providerStep cfg, WDR.datasetStep cfg, WDR.apiStep cfg auth,
      WDR.datesStep cfg upper, WDR.boundsStep cfg, WDR.variablesStep cfg,
      o7, WDR.efaStep cfg, o9, o10].map WDR.StepOut.errs).flatten).isEmpty = true
  · rw [if_pos he]
    refine ⟨_, _, _, rfl, ?_, ?_, ?_⟩
    · simp only [true_iff]
      rw [herr]
      exact List.isEmpty_iff.mp he
    · rw [hnotes, herr, List.isEmpty_iff.mp he, List.append_nil]
    · rw [herr]
      simp [WDR.mapConfigErrors, WDR.okOr, List.append_assoc]
  · rw [if_neg he]
    refine ⟨_, _, _, rfl, ?_, ?_, ?_⟩
    · rw [herr]
      simp only [Bool.false_eq_true, false_iff]
      exact fun hc => he (by rw [hc]; rfl)
    · rw [hnotes, herr]
    · rw [herr]
      simp [WDR.mapConfigErrors, WDR.okOr, List.append_assoc]

/-- C4 witness: a config that is shape-sound but invalid in several fields
(bad provider, missing api_key, missing dates, missing bounds, missing
variables) maps without raising to ok = False with one message per invalid
field. -/
theorem C4_map_config_amended_witness :
    (WDR.retryShapeOK [("data_provider", WDR.PyVal.str "nonsense")] = true) ∧
    (WDR.parallelShapeOK [("data_provider", WDR.PyVal.str "nonsense")] = true) ∧
    (WDR.saveDirShapeOK [("data_provider", WDR.PyVal.str "nonsense")] "data/raw" = true) ∧
    ∃ ok msgs sess,
      WDR.map_config_to_session [("data_provider", WDR.PyVal.str "nonsense")]
        (fun _ _ => Option.none) (fun _ => true)
        ⟨2026, 10, 4, by decide, by decide, by decide⟩ "data/raw"
        WDR.SessionState.init = .ok (ok, msgs, sess) ∧
      (ok = true ↔ WDR.mapConfigErrors [("data_provider", WDR.PyVal.str "nonsense")]
        (fun _ _ => Option.none) (fun _ => true)
        ⟨2026, 10, 4, by decide, by decide, by decide⟩ "data/raw" = []) ∧
      msgs = WDR.mapConfigNotes [("data_provider", WDR.PyVal.str "nonsense")]
        (fun _ _ => Option.none) (fun _ => true)
        ⟨2026, 10, 4, by decide, by decide, by decide⟩ "data/raw" ++
        WDR.mapConfigErrors [("data_provider", WDR.PyVal.str "nonsense")]
        (fun _ _ => Option.none) (fun _ => true)
        ⟨2026, 10, 4, by decide, by decide, by decide⟩ "data/raw" ∧
      WDR.mapConfigErrors [("data_provider", WDR.PyVal.str "nonsense")]
        (fun _ _ => Option.none) (fun _ => true)
        ⟨2026, 10, 4, by decide, by decide, by decide⟩ "data/raw" =
        (WDR.providerStep [("data_provider", WDR.PyVal.str "nonsense")]).errs ++
        (WDR.datasetStep [("data_provider", WDR.PyVal.str "nonsense")]).errs ++
        (WDR.apiStep [("data_provider", WDR.PyVal.str "nonsense")] (fun _ _ => Option.none)).errs ++
        (WDR.datesStep [("data_provider", WDR.PyVal.str "nonsense")]
          ⟨2026, 10, 4, by decide, by decide, by decide⟩).errs ++
        (WDR.boundsStep [("data_provider", WDR.PyVal.str "nonsense")]).errs ++
        (WDR.variablesStep [("data_provider", WDR.PyVal.str "nonsense")]).errs ++
        (WDR.okOr (WDR.saveDirStep [("data_provider", WDR.PyVal.str "nonsense")]
          (fun _ => true) "data/raw")).errs ++
        (WDR.efaStep [("data_provider", WDR.PyVal.str "nonsense")]).errs ++
        (WDR.okOr (WDR.retryStep [("data_provider", WDR.PyVal.str "nonsense")])).errs ++
        (WDR.okOr (WDR.parallelStep [("data_provider", WDR.PyVal.str "nonsense")])).errs := by
  refine ⟨rfl, rfl, rfl, ?_⟩
  exact C4_map_config_amended [("data_provider", WDR.PyVal.str "nonsense")]
    (fun _ _ => Option.none) (fun _ => true)
    ⟨2026, 10, 4, by decide, by decide, by decide⟩ "data/raw"
    WDR.SessionState.init rfl rfl rfl

/-- C5: when the session's existing_file_action is "case_by_case" and prompts
are not allowed (automatic mode), `validate_existing_file_action` coerces the
effective policy to "skip_all", stores the coercion back into the session, and
records a warning — never silently and never fatally (the function is total
and returns normally). -/
theorem C5_case_by_case_coerced_to_skip_all (s : WDR.SessionState)
    (h : s.get "existing_file_action" = WDR.PyVal.str "case_by_case") :
    WDR.validate_existing_file_action s false =
      (WDR.PyVal.str "skip_all",
       s.set "existing_file_action" (WDR.PyVal.str "skip_all"),
       ["existing_file_action=case_by_case is not supported without prompts; coercing to skip_all for automatic mode."]) := by
  rw [WDR.validate_existing_file_action, h]
  simp [WDR.pyTruthy]

/-- C5 witness: a session whose existing_file_action is "case_by_case" is
coerced exactly as the theorem states in automatic mode. -/
theorem C5_case_by_case_coerced_to_skip_all_witness :
    ((WDR.SessionState.init.set "existing_file_action"
        (WDR.PyVal.str "case_by_case")).get "existing_file_action" =
      WDR.PyVal.str "case_by_case") ∧
    WDR.validate_existing_file_action
      (WDR.SessionState.init.set "existing_file_action"
        (WDR.PyVal.str "case_by_case")) false =
      (WDR.PyVal.str "skip_all",
       (WDR.SessionState.init.set "existing_file_action"
         (WDR.PyVal.str "case_by_case")).set "existing_file_action"
         (WDR.PyVal.str "skip_all"),
       ["existing_file_action=case_by_case is not supported without prompts; coercing to skip_all for automatic mode."]) := by
  refine ⟨rfl, ?_⟩
  exact C5_case_by_case_coerced_to_skip_all _ rfl

/-- C9: with max_retries = 0 — which the configuration layer accepts, storing
retry_settings {max_retries: 0, retry_delay_sec: 15} with no error, since only
negative values are rejected — `execute_cds_download` runs zero attempts and
falls off the loop, returning None instead of a (year, month, status) tuple. -/
theorem C9_zero_max_retries_returns_none :
    (∀ (succ : Nat → Bool) (y m : Nat),
      WDR.execute_cds_download succ 0 y m = ⟨Option.none, 0, 0⟩) ∧
    WDR.retryStep [("retry_settings", WDR.PyVal.dict [("max_retries", WDR.PyVal.int 0)])] =
      .ok ⟨[("retry_settings", WDR.PyVal.dict
              [("max_retries", WDR.PyVal.int 0), ("retry_delay_sec", WDR.PyVal.int 15)])],
           ["retry_settings: max_retries=0, retry_delay_sec=15"], []⟩ := by
  exact ⟨fun succ y m => rfl, rfl⟩

namespace WDR

/-!
## Runner exit codes (packages/.../runner.py, `run`)

`run` wraps everything after logger setup in one try/except.  Control flow:
any exception before or during validation/mapping, or anywhere later inside
the try block, reaches the except handler which returns 1; a mapping verdict
`ok=False` returns 1; after orchestration, a non-empty failed list returns 2;
otherwise the try block ends without any return statement, so the function
falls off the end and returns Python `None`.  The effectful stages enter as
an environment: whether validation (or anything up to mapping) raises, the
mapping verdict, whether any later stage raises, and the three outcome lists
filled by orchestration.
-/

/-- Outcomes of the effectful stages of one `run` invocation. -/
structure RunEnv where
  validateRaises : Bool
  mapOk : Bool
  postRaises : Bool
  successful : List (Nat × Nat)
  failed : List (Nat × Nat)
  skipped : List (Nat × Nat)

/-- The value `run` returns: `some c` for `return c`, `none` when the
function falls off the end of the try block (Python `None`). -/
def runner_run (env : RunEnv) : Option Int :=
  if env.validateRaises then some 1
  else if !env.mapOk then some 1
  else if env.postRaises then some 1
  else if !env.failed.isEmpty then some 2
  else Option.none

end WDR

/-- C1: the claim (and the function's own docstring, "Returns: 0=success")
says `run` returns an exit code in {0, 1, 2} with 0 on a clean run.  In the
code every return statement yields 1 or 2 and the clean path has no return
statement at all: a run whose validation and mapping succeed, with no
exception and an empty failed list, returns Python None — never 0. -/
theorem C1_runner_never_returns_zero :
    (∀ env : WDR.RunEnv, WDR.runner_run env = some 1 ∨
      WDR.runner_run env = some 2 ∨ WDR.runner_run env = Option.none) ∧
    (∀ env : WDR.RunEnv, WDR.runner_run env ≠ some 0) ∧
    WDR.runner_run ⟨false, true, false, [], [], []⟩ = Option.none ∧
    WDR.runner_run ⟨false, true, false, [(2020, 1)], [], []⟩ = Option.none ∧
    WDR.runner_run ⟨false, true, false, [], [(2020, 1)], []⟩ = some 2 ∧
    WDR.runner_run ⟨false, false, false, [], [], []⟩ = some 1 ∧
    WDR.runner_run ⟨true, true, false, [], [], []⟩ = some 1 := by
  refine ⟨?_, ?_, rfl, rfl, rfl, rfl, rfl⟩
  · intro env
    rw [WDR.runner_run]
    split
    · exact Or.inl rfl
    split
    · exact Or.inl rfl
    split
    · exact Or.inl rfl
    split
    · exact Or.inr (Or.inl rfl)
    · exact Or.inr (Or.inr rfl)
  · intro env
    rw [WDR.runner_run]
    split
    · simp
    split
    · simp
    split
    · simp
    split
    · simp
    · simp

namespace WDR

/-!
## MD5 (`hashlib.md5`) over byte lists

Bytes and 32-bit words are naturals reduced mod 2^8 / 2^32 where overflow
matters.  Used by `generate_filename_hash` (utils/file_management.py).
-/

/-- The per-round left-rotation amounts. -/
def md5S : List Nat :=
  [7, 12, 17, 22, 7, 12, 17, 22, 7, 12, 17, 22, 7, 12, 17, 22,
   5, 9, 14, 20, 5, 9, 14, 20, 5, 9, 14, 20, 5, 9, 14, 20,
   4, 11, 16, 23, 4, 11, 16, 23, 4, 11, 16, 23, 4, 11, 16, 23,
   6, 10, 15, 21, 6, 10, 15, 21, 6, 10, 15, 21, 6, 10, 15, 21]

/-- The sine-derived round constants `floor(2^32 * abs(sin(i+1)))`. -/
def md5K : List Nat :=
  [3614090360, 3905402710, 606105819, 3250441966,
   4118548399, 1200080426, 2821735955, 4249261313,
   1770035416, 2336552879, 4294925233, 2304563134,
   1804603682, 4254626195, 2792965006, 1236535329,
   4129170786, 3225465664, 643717713, 3921069994,
   3593408605, 38016083, 3634488961, 3889429448,
   568446438, 3275163606, 4107603335, 1163531501,
   2850285829, 4243563512, 1735328473, 2368359562,
   4294588738, 2272392833, 1839030562, 4259657740,
   2763975236, 1272893353, 4139469664, 3200236656,
   681279174, 3936430074, 3572445317, 76029189,
   3654602809, 3873151461, 530742520, 3299628645,
   4096336452, 1126891415, 2878612391, 4237533241,
   1700485571, 2399980690, 4293915773, 2240044497,
   1873313359, 4264355552, 2734768916, 1309151649,
   4149444226, 3174756917, 718787259, 3951481745]

def add32 (a b : Nat) : Nat := (a + b) % 4294967296

def not32 (x : Nat) : Nat := 4294967295 ^^^ (x % 4294967296)

def rotl32 (x c : Nat) : Nat := ((x <<< c) ||| (x >>> (32 - c))) % 4294967296

/-- One MD5 round step on the running state (a, b, c, d). -/
def md5Step (w : Nat → Nat) (st : Nat × Nat × Nat × Nat) (i : Nat) :
    Nat × Nat × Nat × Nat :=
  let (a, b, c, d) := st
  let (f, g) :=
    if i < 16 then ((b &&& c) ||| (not32 b &&& d), i)
    else if i < 32 then ((d &&& b) ||| (not32 d &&& c), (5 * i + 1) % 16)
    else if i < 48 then (b ^^^ c ^^^ d, (3 * i + 5) % 16)
    else (c ^^^ (b ||| not32 d), (7 * i) % 16)
  let fv := add32 (add32 (add32 f a) (md5K.getD i 0)) (w g)
  (d, add32 b (rotl32 fv (md5S.getD i 0)), b, c)

/-- Decode one 64-byte chunk into its 16 little-endian words. -/
def chunkWords (chunk : List Nat) (g : Nat) : Nat :=
  chunk.getD (4 * g) 0 + 256 * chunk.getD (4 * g + 1) 0 +
    65536 * chunk.getD (4 * g + 2) 0 + 16777216 * chunk.getD (4 * g + 3) 0

/-- Process one chunk: 64 rounds then add to the incoming state. -/
def md5Chunk (st : Nat × Nat × Nat × Nat) (chunk : List Nat) :
    Nat × Nat × Nat × Nat :=
  let r := (List.range 64).foldl (md5Step (chunkWords chunk)) st
  (add32 st.1 r.1, add32 st.2.1 r.2.1, add32 st.2.2.1 r.2.2.1, add32 st.2.2.2 r.2.2.2)

/-- MD5 padding: 0x80, zeros to 56 mod 64, then the bit length as 8
little-endian bytes. -/
def md5Pad (msg : List Nat) : List Nat :=
  msg ++ [128] ++ List.replicate ((55 + 64 - msg.length % 64) % 64) 0 ++
    (List.range 8).map (fun i => ((8 * msg.length) >>> (8 * i)) % 256)

/-- Split into 64-byte chunks (structural recursion on a fuel bounded by the
length; every step consumes at least one element, so the fuel never runs out
first). -/
def chunksOf64Aux : Nat → List Nat → List (List Nat)
  | 0, _ => []
  | _, [] => []
  | fuel + 1, a :: rest =>
    ((a :: rest).take 64) :: chunksOf64Aux fuel ((a :: rest).drop 64)

/-- Split into 64-byte chunks. -/
def chunksOf64 (l : List Nat) : List (List Nat) := chunksOf64Aux l.length l

/-- Four little-endian bytes of a 32-bit word. -/
def wordLEBytes (x : Nat) : List Nat :=
  [x % 256, x / 256 % 256, x / 65536 % 256, x / 16777216 % 256]

/-- The 16-byte MD5 digest of a byte list. -/
def md5Bytes (msg : List Nat) : List Nat :=
  let st := (chunksOf64 (md5Pad msg)).foldl md5Chunk
    (1732584193, 4023233417, 2562383102, 271733878)
  wordLEBytes st.1 ++ wordLEBytes st.2.1 ++ wordLEBytes st.2.2.1 ++ wordLEBytes st.2.2.2

def hexChar (n : Nat) : Char :=
  if n < 10 then Char.ofNat (48 + n) else Char.ofNat (87 + n)

def byteHex (b : Nat) : List Char := [hexChar (b / 16 % 16), hexChar (b % 16)]

/-- `hashlib.md5(x).hexdigest()`. -/
def md5Hex (msg : List Nat) : String := ⟨((md5Bytes msg).map byteHex).flatten⟩

/-- UTF-8 encoding of one character (`str.encode()`). -/
def utf8Char (c : Char) : List Nat :=
  let n := c.toNat
  if n < 128 then [n]
  else if n < 2048 then [192 ||| (n >>> 6), 128 ||| (n &&& 63)]
  else if n < 65536 then
    [224 ||| (n >>> 12), 128 ||| ((n >>> 6) &&& 63), 128 ||| (n &&& 63)]
  else
    [240 ||| (n >>> 18), 128 ||| ((n >>> 12) &&& 63),
     128 ||| ((n >>> 6) &&& 63), 128 ||| (n &&& 63)]

/-- `s.encode()`. -/
def utf8Encode (s : String) : List Nat := (s.data.map utf8Char).flatten

set_option maxRecDepth 100000 in
/-- MD5 test vector from RFC 1321: the empty message. -/
theorem md5Hex_rfc1321_empty :
    md5Hex (utf8Encode "") = "d41d8cd98f00b204e9800998ecf8427e" := by
  decide

set_option maxRecDepth 100000 in
/-- MD5 test vector from RFC 1321: "abc". -/
theorem md5Hex_rfc1321_abc :
    md5Hex (utf8Encode "abc") = "900150983cd24fb0d6963f7d28e17f72" := by
  decide

end WDR

namespace WDR

/-!
## `sorted(variables)` and Python repr of the canonical string
-/

/-- Code-point lexicographic comparison of character lists, as Python string
comparison does. -/
def charListLe : List Char → List Char → Bool
  | [], _ => true
  | _ :: _, [] => false
  | a :: as, b :: bs =>
    if a.toNat < b.toNat then true
    else if b.toNat < a.toNat then false
    else charListLe as bs

/-- Python `<=` on strings. -/
def pyStrLeRel (a b : String) : Prop := charListLe a.data b.data = true

instance : DecidableRel pyStrLeRel :=
  fun a b => inferInstanceAs (Decidable (charListLe a.data b.data = true))

theorem charListLe_total (a b : List Char) :
    charListLe a b = true ∨ charListLe b a = true := by
  induction a generalizing b with
  | nil => exact Or.inl rfl
  | cons x xs ih =>
    cases b with
    | nil => exact Or.inr rfl
    | cons y ys =>
      by_cases hxy : x.toNat < y.toNat
      · left
        simp [charListLe, hxy]
      · by_cases hyx : y.toNat < x.toNat
        · right
          simp [charListLe, hyx]
        · rcases ih ys with h | h
          · left
            simp [charListLe, hxy, hyx, h]
          · right
            simp [charListLe, hxy, hyx, h]

theorem charListLe_trans {a b c : List Char} (h1 : charListLe a b = true)
    (h2 : charListLe b c = true) : charListLe a c = true := by
  induction a generalizing b c with
  | nil => rfl
  | cons x xs ih =>
    cases b with
    | nil => simp [charListLe] at h1
    | cons y ys =>
      cases c with
      | nil => simp [charListLe] at h2
      | cons z zs =>
        simp only [charListLe] at h1 h2 ⊢
        by_cases hxy : x.toNat < y.toNat
        · rw [if_pos hxy] at h1
          by_cases hyz : y.toNat < z.toNat
          · rw [if_pos (by omega : x.toNat < z.toNat)]
          · rw [if_neg hyz] at h2
            by_cases hzy : z.toNat < y.toNat
            · rw [if_pos hzy] at h2
              exact absurd h2 (by simp)
            · rw [if_pos (by omega : x.toNat < z.toNat)]
        · rw [if_neg hxy] at h1
          by_cases hyx : y.toNat < x.toNat
          · rw [if_pos hyx] at h1
            exact absurd h1 (by simp)
          · rw [if_neg hyx] at h1
            by_cases hyz : y.toNat < z.toNat
            · rw [if_pos hyz] at h2
              rw [if_pos (by omega : x.toNat < z.toNat)]
            · rw [if_neg hyz] at h2
              by_cases hzy : z.toNat < y.toNat
              · rw [if_pos hzy] at h2
                exact absurd h2 (by simp)
              · rw [if_neg hzy] at h2
                rw [if_neg (by omega : ¬ x.toNat < z.toNat),
                  if_neg (by omega : ¬ z.toNat < x.toNat)]
                exact ih h1 h2

theorem char_toNat_inj {a b : Char} (h : a.toNat = b.toNat) : a = b :=
  Char.ext (UInt32.ext h)

theorem charListLe_antisymm {a b : List Char} (h1 : charListLe a b = true)
    (h2 : charListLe b a = true) : a = b := by
  induction a generalizing b with
  | nil =>
    cases b with
    | nil => rfl
    | cons y ys => simp [charListLe] at h2
  | cons x xs ih =>
    cases b with
    | nil => simp [charListLe] at h1
    | cons y ys =>
      simp only [charListLe] at h1 h2
      by_cases hxy : x.toNat < y.toNat <;> by_cases hyx : y.toNat < x.toNat
      · omega
      · simp [hxy, hyx] at h2
      · simp [hxy, hyx] at h1
      · have hx : x = y := char_toNat_inj (by omega)
        subst hx
        simp only [hxy, if_false] at h1 h2
        rw [ih h1 h2]

instance : IsTotal String pyStrLeRel :=
  ⟨fun a b => charListLe_total a.data b.data⟩

instance : IsTrans String pyStrLeRel :=
  ⟨fun _ _ _ h1 h2 => charListLe_trans h1 h2⟩

instance : IsAntisymm String pyStrLeRel :=
  ⟨fun a b h1 h2 => by
    cases a with
    | mk ad =>
      cases b with
      | mk bd =>
        congr 1
        exact charListLe_antisymm h1 h2⟩

/-- `sorted(l)` for strings: any stable comparison sort; Python's sort agrees
with every sort on a total order, since the result is unique. -/
def pySorted (l : List String) : List String := List.insertionSort pyStrLeRel l

theorem pySorted_eq_of_perm {v1 v2 : List String} (h : v1.Perm v2) :
    pySorted v1 = pySorted v2 := by
  apply List.eq_of_perm_of_sorted
    (((List.perm_insertionSort pyStrLeRel v1).trans h).trans
      (List.perm_insertionSort pyStrLeRel v2).symm)
    (List.sorted_insertionSort pyStrLeRel v1)
    (List.sorted_insertionSort pyStrLeRel v2)

/-- The single-quote character (kept out of the literals for hygiene). -/
def squote : Char := Char.ofNat 39

/-- The double-quote character. -/
def dquote : Char := Char.ofNat 34

/-- `repr(c)` escaping inside a quoted string. -/
def escapeChar (quote c : Char) : List Char :=
  if c = '\\' then ['\\', '\\']
  else if c = quote then ['\\', c]
  else [c]

/-- Python `repr` of a string: single quotes, or double quotes when the text
contains a single quote but no double quote. -/
def pyReprStr (s : String) : String :=
  let q := if s.data.contains squote && !s.data.contains dquote then dquote else squote
  ⟨[q] ++ (s.data.map (escapeChar q)).flatten ++ [q]⟩

/-- Python `repr`/`str` of a list of strings, as interpolated by f-strings. -/
def pyReprStrList (l : List String) : String :=
  "[" ++ String.intercalate ", " (l.map pyReprStr) ++ "]"

/-- Python `str` of a list of floats. -/
def pyReprFloatList (l : List Rat) : String :=
  "[" ++ String.intercalate ", " (l.map floatRepr) ++ "]"

/-- The canonical parameter string
`f"{dataset_short_name}|{sorted(variables)}|{boundaries}"`. -/
def canonicalParamString (ds : String) (vars : List String) (bounds : List Rat) :
    String :=
  ds ++ "|" ++ pyReprStrList (pySorted vars) ++ "|" ++ pyReprFloatList bounds

/-- `generate_filename_hash` (utils/file_management.py): the first 12 hex
characters of the MD5 digest of the canonical parameter string. -/
def generate_filename_hash (ds : String) (vars : List String)
    (bounds : List Rat) : String :=
  ⟨(md5Hex (utf8Encode (canonicalParamString ds vars bounds))).data.take 12⟩

theorem md5Bytes_length (msg : List Nat) : (md5Bytes msg).length = 16 := by
  rw [md5Bytes]
  simp [wordLEBytes]

theorem md5Hex_length (msg : List Nat) : (md5Hex msg).length = 32 := by
  rw [md5Hex, String.length]
  simp only [List.length_flatten, List.map_map]
  have : ∀ l : List Nat, (l.map (List.length ∘ byteHex)).sum = 2 * l.length := by
    intro l
    induction l with
    | nil => rfl
    | cons x xs ih =>
      simp only [List.map_cons, List.sum_cons, ih, List.length_cons]
      simp [byteHex]
      omega
  rw [this, md5Bytes_length]

end WDR

/-- C8: `generate_filename_hash` is a pure function of
(dataset_short_name, sorted(variables), boundaries): variable lists that are
permutations of each other give the same hash, the result is always a
12-character string, and it equals the first 12 hex characters of the MD5
digest of the canonical string `"{dataset}|{sorted(variables)}|{bounds}"`. -/
theorem C8_generate_filename_hash (ds : String) (v1 v2 : List String)
    (bounds : List Rat) (hperm : v1.Perm v2) :
    WDR.generate_filename_hash ds v1 bounds =
      WDR.generate_filename_hash ds v2 bounds ∧
    (WDR.generate_filename_hash ds v1 bounds).length = 12 ∧
    WDR.generate_filename_hash ds v1 bounds =
      ⟨(WDR.md5Hex (WDR.utf8Encode
        (ds ++ "|" ++ WDR.pyReprStrList (WDR.pySorted v1) ++ "|" ++
          WDR.pyReprFloatList bounds))).data.take 12⟩ := by
  refine ⟨?_, ?_, rfl⟩
  · rw [WDR.generate_filename_hash, WDR.generate_filename_hash,
      WDR.canonicalParamString, WDR.canonicalParamString,
      WDR.pySorted_eq_of_perm hperm]
  · rw [WDR.generate_filename_hash, String.length]
    simp only [List.length_take]
    have h32 := WDR.md5Hex_length (WDR.utf8Encode (WDR.canonicalParamString ds v1 bounds))
    rw [String.length] at h32
    omega

set_option maxRecDepth 1000000 in
/-- C8 witness: the two permuted variable lists hash identically, the hash has
12 characters, and on this concrete input it equals the first 12 hex digits of
the MD5 of "era5-world|['2m_temperature', 'total_precipitation']|[10.0, -5.0,
0.0, 20.0]" as computed by the Python implementation. -/
theorem C8_generate_filename_hash_witness :
    (["total_precipitation", "2m_temperature"].Perm
      ["2m_temperature", "total_precipitation"]) ∧
    WDR.generate_filename_hash "era5-world"
      ["total_precipitation", "2m_temperature"] [10, -5, 0, 20] =
      WDR.generate_filename_hash "era5-world"
        ["2m_temperature", "total_precipitation"] [10, -5, 0, 20] ∧
    (WDR.generate_filename_hash "era5-world"
      ["total_precipitation", "2m_temperature"] [10, -5, 0, 20]).length = 12 ∧
    WDR.generate_filename_hash "era5-world"
      ["2m_temperature", "total_precipitation"] [10, -5, 0, 20] = "e4ebb7751a4b" := by
  have hperm : (["total_precipitation", "2m_temperature"] : List String).Perm
      ["2m_temperature", "total_precipitation"] :=
    List.Perm.swap "2m_temperature" "total_precipitation" []
  have h := C8_generate_filename_hash "era5-world"
    ["total_precipitation", "2m_temperature"]
    ["2m_temperature", "total_precipitation"] [10, -5, 0, 20] hperm
  exact ⟨hperm, h.1, h.2.1, by decide⟩
